import Mathlib

/-!
Verification of the user-registration module (`registration.py`): a shallow
embedding of a single-table user store backed by SQLite.

* The store state is `Option (List Row)`: `none` models a database in which
  the `users` table does not exist (e.g. the database file was removed and a
  fresh connection recreated an empty file); `some rows` models an existing
  table with the given rows, in insertion order.
* `create_db` runs `CREATE TABLE IF NOT EXISTS users (...)`.
* `is_valid_email` embeds `re.match(r"[^@]+@[^@]+\.[^@]+", email) is not None`:
  a *prefix* match of the pattern (Python `re.match` anchors only at the
  start of the string).
* `add_user` validates the three fields, then attempts the `INSERT`; both the
  `sqlite3.IntegrityError` raised on a duplicate `username` (the primary key)
  and any other storage exception — in particular `OperationalError: no such
  table` when the table is absent — are caught by its handlers and collapse
  to the return value `False`, with the transaction rolled back.
* `authenticate_user` and `display_users` have no exception handler, so on an
  absent table the storage error propagates to the caller; this is modelled
  by the `Except DBError` result type.
-/

structure Row where
  username : String
  email : String
  password : String
deriving DecidableEq, Repr

/-- The persistent store: `none` = the `users` table does not exist;
`some rows` = the table exists and holds `rows` in insertion order. -/
def DBState : Type := Option (List Row)

/-- Storage-layer exceptions that escape to the caller
(`sqlite3.OperationalError: no such table: users`). -/
inductive DBError where
  | noSuchTable
deriving DecidableEq, Repr

/-- Embeds `create_db`: `CREATE TABLE IF NOT EXISTS users (username TEXT
PRIMARY KEY, email TEXT NOT NULL, password TEXT NOT NULL)`; creates an empty
table when absent, leaves an existing table untouched. -/
def create_db (s : DBState) : DBState :=
  match s with
  | none => some []
  | some rows => some rows

/-- Splits a character list at its first `'@'`: returns the (possibly empty)
`'@'`-free segment before it and the rest after it, or `none` when no `'@'`
occurs.  Embeds the `[^@]+@` part of the regex (the `'@'` consumed by the
pattern is necessarily the first one, since `[^@]` cannot match `'@'`). -/
def splitAtSign : List Char → Option (List Char × List Char)
  | [] => none
  | c :: cs =>
    if c = '@' then some ([], cs)
    else
      match splitAtSign cs with
      | some (p, r) => some (c :: p, r)
      | none => none

/-- Scans for `\.[^@]` preceded only by non-`'@'` characters: the backtracking
search of `[^@]+\.[^@]+` after at least one non-`'@'` character has already
been consumed.  At the first `'.'` found, the match succeeds iff the next
character exists and is not `'@'`; if it is `'@'` no later dot can succeed
(the `'@'` would fall inside the later dot's `[^@]+` prefix), and an `'@'`
encountered before any dot kills the match outright. -/
def seekDot : List Char → Bool
  | [] => false
  | c :: cs =>
    if c = '@' then false
    else if c = '.' then
      match cs with
      | [] => false
      | d :: _ => decide (d ≠ '@')
    else seekDot cs

/-- Matches `[^@]+\.[^@]+` against a prefix of the input (the part of the
email after the first `'@'`). -/
def domainMatch : List Char → Bool
  | [] => false
  | c :: cs => if c = '@' then false else seekDot cs

/-- Matches the pattern `[^@]+@[^@]+\.[^@]+` against a prefix of the
character list. -/
def emailMatch (cs : List Char) : Bool :=
  match splitAtSign cs with
  | none => false
  | some (p, r) => !p.isEmpty && domainMatch r

/-- Embeds `is_valid_email`:
`re.match(r"[^@]+@[^@]+\.[^@]+", email) is not None`. -/
def is_valid_email (email : String) : Bool :=
  emailMatch email.data

/-- Embeds `add_user(username, email, password)`: validation (Python
falsiness of a string is emptiness), then `INSERT`.  Returns the new state
and the boolean result; every failure path leaves the state unchanged and
returns `false`. -/
def add_user (s : DBState) (username email password : String) : DBState × Bool :=
  if username = "" ∨ email = "" ∨ password = "" ∨ is_valid_email email = false then
    (s, false)
  else
    match s with
    | none => (s, false)
    | some rows =>
      if rows.any (fun r => r.username == username) then
        (s, false)
      else
        (some (rows ++ [⟨username, email, password⟩]), true)

/-- Embeds `authenticate_user(username, password)`: empty-credential short circuit,
then `SELECT * FROM users WHERE username=? AND password=?` with
`fetchone() is not None`.  SQLite `TEXT` comparison under the default
`BINARY` collation is exact byte equality, embedded as `String` equality.
No exception handler: an absent table raises to the caller. -/
def authenticate_user (s : DBState) (username password : String) :
    Except DBError Bool :=
  if username = "" ∨ password = "" then
    .ok false
  else
    match s with
    | none => .error .noSuchTable
    | some rows =>
      .ok (rows.any fun r => r.username == username && r.password == password)

/-- Embeds `display_users()`: `SELECT username, email FROM users` then
`users if users else []` (both branches produce the same list, kept to
mirror the source).  No exception handler: an absent table raises. -/
def display_users (s : DBState) : Except DBError (List (String × String)) :=
  match s with
  | none => .error .noSuchTable
  | some rows =>
    let users := rows.map fun r => (r.username, r.email)
    .ok (if users.isEmpty then [] else users)

/-- The email rule as the specification words it: at least one character
before the `'@'`, at least one character between the `'@'` and the *final*
`'.'`, and at least one character after the final `'.'`.  `lastDotSplit`
splits at the last `'.'` of the string. -/
def lastDotSplit : List Char → Option (List Char × List Char)
  | [] => none
  | c :: cs =>
    match lastDotSplit cs with
    | some (b, a) => some (c :: b, a)
    | none => if c = '.' then some ([], cs) else none

/-- The specification's email-validation rule, for comparison with the
code's `is_valid_email`: the string has a `'.'`; at least one character
follows the final `'.'`; and the segment before the final `'.'` contains an
`'@'` that is neither its first character (≥ 1 character before the `'@'`)
nor its last (≥ 1 character between the `'@'` and the final `'.'`). -/
def specEmailValid (email : String) : Bool :=
  match lastDotSplit email.data with
  | none => false
  | some (b, a) => !a.isEmpty && ((b.drop 1).dropLast.contains '@')

/-! Helper lemmas. -/

theorem splitAtSign_eq_some {cs p r : List Char}
    (h : splitAtSign cs = some (p, r)) : cs = p ++ '@' :: r ∧ '@' ∉ p := by
  induction cs generalizing p r with
  | nil => simp [splitAtSign] at h
  | cons c cs ih =>
    by_cases hc : c = '@'
    · subst hc
      simp [splitAtSign] at h
      obtain ⟨hp, hr⟩ := h
      subst hp; subst hr
      simp
    · cases heq : splitAtSign cs with
      | none => simp [splitAtSign, hc, heq] at h
      | some pr =>
        obtain ⟨p0, r0⟩ := pr
        simp [splitAtSign, hc, heq] at h
        obtain ⟨hp, hr⟩ := h
        subst hp; subst hr
        obtain ⟨hcs, hnp⟩ := ih heq
        subst hcs
        refine ⟨rfl, ?_⟩
        intro hm
        rcases List.mem_cons.1 hm with h | h
        · exact hc h.symm
        · exact hnp h

theorem splitAtSign_append {p : List Char} (r : List Char) (hp : '@' ∉ p) :
    splitAtSign (p ++ '@' :: r) = some (p, r) := by
  induction p with
  | nil => simp [splitAtSign]
  | cons c p ih =>
    have hc : ¬(c = '@') := fun h => hp (h ▸ List.mem_cons_self c p)
    have hp2 : '@' ∉ p := fun h => hp (List.mem_cons_of_mem c h)
    simp [splitAtSign, hc, ih hp2]

theorem seekDot_iff (cs : List Char) :
    seekDot cs = true ↔
      ∃ u d v, cs = u ++ '.' :: d :: v ∧ '@' ∉ u ∧ d ≠ '@' := by
  induction cs with
  | nil =>
    constructor
    · intro h
      rw [show seekDot [] = false from rfl] at h
      simp at h
    · rintro ⟨u, d, v, hsplit, hu, hd⟩
      cases u with
      | nil => exact List.noConfusion hsplit
      | cons a u => exact List.noConfusion hsplit
  | cons c cs ih =>
    by_cases hat : c = '@'
    · subst hat
      constructor
      · intro h
        rw [show seekDot ('@' :: cs) = false from rfl] at h
        simp at h
      · rintro ⟨u, d, v, hsplit, hu, hd⟩
        cases u with
        | nil =>
          injection hsplit with h1 h2
          exact absurd h1 (by decide)
        | cons a u =>
          injection hsplit with h1 h2
          subst h1
          exact (hu (List.mem_cons_self '@' u)).elim
    · by_cases hdot : c = '.'
      · subst hdot
        cases cs with
        | nil =>
          constructor
          · intro h
            rw [show seekDot ['.'] = false from rfl] at h
            simp at h
          · rintro ⟨u, d, v, hsplit, hu, hd⟩
            cases u with
            | nil =>
              injection hsplit with h1 h2
              exact List.noConfusion h2
            | cons a u =>
              injection hsplit with h1 h2
              cases u with
              | nil => exact List.noConfusion h2
              | cons b u => exact List.noConfusion h2
        | cons d0 v0 =>
          by_cases hd0 : d0 = '@'
          · subst hd0
            constructor
            · intro h
              rw [show seekDot ('.' :: '@' :: v0) = false from rfl] at h
              simp at h
            · rintro ⟨u, d, v, hsplit, hu, hd⟩
              cases u with
              | nil =>
                injection hsplit with h1 h2
                injection h2 with h3 h4
                exact (hd h3.symm).elim
              | cons a u =>
                injection hsplit with h1 h2
                cases u with
                | nil =>
                  injection h2 with h3 h4
                  exact absurd h3 (by decide)
                | cons b u =>
                  injection h2 with h3 h4
                  subst h3
                  exact (hu (List.mem_cons_of_mem a (List.mem_cons_self '@' u))).elim
          · constructor
            · intro h
              exact ⟨[], d0, v0, rfl, by simp, hd0⟩
            · intro h
              rw [show seekDot ('.' :: d0 :: v0) = decide (d0 ≠ '@') from rfl]
              simp [hd0]
      · have hstep : seekDot (c :: cs) = seekDot cs := by
          simp [seekDot, hat, hdot]
        rw [hstep, ih]
        constructor
        · rintro ⟨u, d, v, hsplit, hu, hd⟩
          refine ⟨c :: u, d, v, by rw [hsplit]; rfl, ?_, hd⟩
          intro hm
          rcases List.mem_cons.1 hm with h | h
          · exact hat h.symm
          · exact hu h
        · rintro ⟨u, d, v, hsplit, hu, hd⟩
          cases u with
          | nil =>
            injection hsplit with h1 h2
            exact absurd h1 hdot
          | cons a u =>
            injection hsplit with h1 h2
            exact ⟨u, d, v, h2, fun hm => hu (List.mem_cons_of_mem a hm), hd⟩

theorem domainMatch_iff (r : List Char) :
    domainMatch r = true ↔
      ∃ b d v, r = b ++ '.' :: d :: v ∧ b ≠ [] ∧ '@' ∉ b ∧ d ≠ '@' := by
  cases r with
  | nil =>
    constructor
    · intro h
      rw [show domainMatch [] = false from rfl] at h
      simp at h
    · rintro ⟨b, d, v, hsplit, hb, hnb, hd⟩
      cases b with
      | nil => exact List.noConfusion hsplit
      | cons a b => exact List.noConfusion hsplit
  | cons c cs =>
    by_cases hat : c = '@'
    · subst hat
      constructor
      · intro h
        rw [show domainMatch ('@' :: cs) = false from rfl] at h
        simp at h
      · rintro ⟨b, d, v, hsplit, hb, hnb, hd⟩
        cases b with
        | nil =>
          injection hsplit with h1 h2
          exact absurd h1 (by decide)
        | cons a b =>
          injection hsplit with h1 h2
          subst h1
          exact (hnb (List.mem_cons_self '@' b)).elim
    · have hstep : domainMatch (c :: cs) = seekDot cs := by
        simp [domainMatch, hat]
      rw [hstep, seekDot_iff]
      constructor
      · rintro ⟨u, d, v, hsplit, hu, hd⟩
        refine ⟨c :: u, d, v, by rw [hsplit]; rfl, by simp, ?_, hd⟩
        intro hm
        rcases List.mem_cons.1 hm with h | h
        · exact hat h.symm
        · exact hu h
      · rintro ⟨b, d, v, hsplit, hb, hnb, hd⟩
        cases b with
        | nil => exact absurd rfl hb
        | cons a b =>
          injection hsplit with h1 h2
          exact ⟨b, d, v, h2, fun hm => hnb (List.mem_cons_of_mem a hm), hd⟩

theorem emailMatch_iff (cs : List Char) :
    emailMatch cs = true ↔
      ∃ a b d v, cs = a ++ '@' :: (b ++ '.' :: d :: v) ∧
        a ≠ [] ∧ '@' ∉ a ∧ b ≠ [] ∧ '@' ∉ b ∧ d ≠ '@' := by
  unfold emailMatch
  cases heq : splitAtSign cs with
  | none =>
    constructor
    · intro h; exact absurd h (by simp)
    · rintro ⟨a, b, d, v, hsplit, ha, hna, hb, hnb, hd⟩
      rw [hsplit, splitAtSign_append _ hna] at heq
      exact absurd heq (by simp)
  | some pr =>
    obtain ⟨p, r⟩ := pr
    obtain ⟨hcs, hnp⟩ := splitAtSign_eq_some heq
    have hne : (!p.isEmpty) = true ↔ p ≠ [] := by
      cases p <;> simp
    simp only [Bool.and_eq_true, hne]
    rw [domainMatch_iff]
    constructor
    · rintro ⟨hp, b, d, v, hsplit, hb, hnb, hd⟩
      exact ⟨p, b, d, v, by rw [hcs, hsplit], hp, hnp, hb, hnb, hd⟩
    · rintro ⟨a, b, d, v, hsplit, ha, hna, hb, hnb, hd⟩
      rw [hsplit, splitAtSign_append _ hna] at heq
      simp only [Option.some.injEq, Prod.mk.injEq] at heq
      obtain ⟨hpa, hr⟩ := heq
      subst hpa
      exact ⟨ha, b, d, v, hr.symm, hb, hnb, hd⟩

theorem display_users_some (rows : List Row) :
    display_users (some rows) = .ok (rows.map fun r => (r.username, r.email)) := by
  cases rows with
  | nil => rfl
  | cons r rows => rfl

theorem add_user_invalid {u e p : String} (s : DBState)
    (h : u = "" ∨ e = "" ∨ p = "" ∨ is_valid_email e = false) :
    add_user s u e p = (s, false) := by
  unfold add_user
  rw [if_pos h]

theorem add_user_dup {rows : List Row} {u : String} (e p : String)
    (hmem : ∃ r ∈ rows, r.username = u) :
    add_user (some rows) u e p = (some rows, false) := by
  by_cases hval : u = "" ∨ e = "" ∨ p = "" ∨ is_valid_email e = false
  · exact add_user_invalid _ hval
  · have hany : rows.any (fun r => r.username == u) = true := by
      rw [List.any_eq_true]
      obtain ⟨r, hr, hru⟩ := hmem
      exact ⟨r, hr, by simp [hru]⟩
    unfold add_user
    rw [if_neg hval]
    simp [hany]

theorem add_user_success {rows : List Row} {u e p : String}
    (hu : u ≠ "") (he : e ≠ "") (hp : p ≠ "") (hv : is_valid_email e = true)
    (hnew : ∀ r ∈ rows, r.username ≠ u) :
    add_user (some rows) u e p = (some (rows ++ [⟨u, e, p⟩]), true) := by
  have hval : ¬(u = "" ∨ e = "" ∨ p = "" ∨ is_valid_email e = false) := by
    push_neg
    exact ⟨hu, he, hp, by simp [hv]⟩
  have hany : rows.any (fun r => r.username == u) = false := by
    rw [List.any_eq_false]
    intro r hr
    simp [hnew r hr]
  unfold add_user
  rw [if_neg hval]
  simp [hany]

example : is_valid_email "a@b.co" = true := by decide
example : is_valid_email "not-an-email" = false := by decide
example : is_valid_email "" = false := by decide
example : is_valid_email "a@b.cd." = true := by decide
example : specEmailValid "a@b.cd." = false := by decide
example : specEmailValid "a@b.co" = true := by decide
example : specEmailValid "not-an-email" = false := by decide
example : is_valid_email "a@b.c@d" = true := by decide
example : is_valid_email "a@b.@" = false := by decide
example : is_valid_email "a@@b.c" = false := by decide
example : is_valid_email "a.b@cd" = false := by decide

theorem add_user_none (u e p : String) : add_user none u e p = (none, false) := by
  by_cases hval : u = "" ∨ e = "" ∨ p = "" ∨ is_valid_email e = false
  · exact add_user_invalid none hval
  · unfold add_user
    rw [if_neg hval]

theorem add_user_some_cases (rows : List Row) (u e p : String)
    (hval : ¬(u = "" ∨ e = "" ∨ p = "" ∨ is_valid_email e = false)) :
    add_user (some rows) u e p =
      (if (rows.any fun r => r.username == u) = true then (some rows, false)
       else (some (rows ++ [⟨u, e, p⟩]), true)) := by
  unfold add_user
  rw [if_neg hval]

theorem authenticate_user_empty (s : DBState) {u p : String} (h : u = "" ∨ p = "") :
    authenticate_user s u p = .ok false := by
  unfold authenticate_user
  rw [if_pos h]

theorem authenticate_user_no_table {u p : String} (hu : u ≠ "") (hp : p ≠ "") :
    authenticate_user none u p = .error DBError.noSuchTable := by
  unfold authenticate_user
  rw [if_neg (by push_neg; exact ⟨hu, hp⟩)]

theorem authenticate_some_iff (rows : List Row) {u p : String}
    (hu : u ≠ "") (hp : p ≠ "") :
    authenticate_user (some rows) u p = .ok true ↔
      ∃ r ∈ rows, r.username = u ∧ r.password = p := by
  unfold authenticate_user
  rw [if_neg (by push_neg; exact ⟨hu, hp⟩)]
  constructor
  · intro h
    have h2 : (rows.any fun r => r.username == u && r.password == p) = true :=
      Except.ok.inj h
    rw [List.any_eq_true] at h2
    obtain ⟨r, hr, hb⟩ := h2
    rw [Bool.and_eq_true, beq_iff_eq, beq_iff_eq] at hb
    exact ⟨r, hr, hb⟩
  · rintro ⟨r, hr, h1, h2⟩
    show Except.ok (rows.any fun r => r.username == u && r.password == p) =
      Except.ok true
    have h3 : (rows.any fun r => r.username == u && r.password == p) = true := by
      rw [List.any_eq_true]
      refine ⟨r, hr, ?_⟩
      rw [Bool.and_eq_true, beq_iff_eq, beq_iff_eq]
      exact ⟨h1, h2⟩
    rw [h3]

/-! Claim theorems. -/

/-- C1: if the store already contains a row with username `u`, then
`add_user u e p` with any non-empty, valid `e, p` returns `false` and leaves
the store unchanged; a subsequent `display_users` still lists `u` with the
original row's email, and not with the new email `e` when the two differ.
The `Nodup` hypothesis is the table's `PRIMARY KEY` invariant, which every
reachable store state satisfies. -/
theorem duplicate_username_atomic_failure (rows : List Row) (u e p : String)
    (hnd : (rows.map Row.username).Nodup)
    (hmem : ∃ r ∈ rows, r.username = u)
    (he : e ≠ "") (hp : p ≠ "") (hv : is_valid_email e = true) :
    add_user (some rows) u e p = (some rows, false) ∧
    ∀ r ∈ rows, r.username = u →
      display_users (add_user (some rows) u e p).1 =
        .ok (rows.map fun x => (x.username, x.email)) ∧
      (u, r.email) ∈ rows.map (fun x => (x.username, x.email)) ∧
      (r.email ≠ e → (u, e) ∉ rows.map fun x => (x.username, x.email)) := by
  have h1 : add_user (some rows) u e p = (some rows, false) := add_user_dup e p hmem
  refine ⟨h1, ?_⟩
  intro r hr hru
  refine ⟨?_, ?_, ?_⟩
  · rw [h1]
    exact display_users_some rows
  · have hmm : (r.username, r.email) ∈ rows.map (fun x => (x.username, x.email)) :=
      List.mem_map_of_mem _ hr
    rwa [hru] at hmm
  · intro hne hmem2
    rw [List.mem_map] at hmem2
    obtain ⟨x, hx, hxe⟩ := hmem2
    rw [Prod.mk.injEq] at hxe
    obtain ⟨hxu, hxe2⟩ := hxe
    have hxr : x = r := by
      apply List.inj_on_of_nodup_map hnd hx hr
      rw [hxu, hru]
    apply hne
    rw [← hxe2, hxr]

/-- Witness for C1 at the spec's example: register `("u","a@b.co","p")`,
then a second `register ("u","c@d.co","q")` fails atomically. -/
theorem duplicate_username_atomic_failure_witness :
    add_user (some [⟨"u", "a@b.co", "p"⟩]) "u" "c@d.co" "q" =
      (some [⟨"u", "a@b.co", "p"⟩], false) ∧
    ("u", "a@b.co") ∈ [(⟨"u", "a@b.co", "p"⟩ : Row)].map (fun x => (x.username, x.email)) ∧
    ("u", "c@d.co") ∉ [(⟨"u", "a@b.co", "p"⟩ : Row)].map (fun x => (x.username, x.email)) := by
  have h := duplicate_username_atomic_failure [⟨"u", "a@b.co", "p"⟩] "u" "c@d.co" "q"
    (by decide) ⟨⟨"u", "a@b.co", "p"⟩, List.mem_singleton.2 rfl, rfl⟩
    (by decide) (by decide) (by decide)
  obtain ⟨h1, h2⟩ := h
  have h3 := h2 ⟨"u", "a@b.co", "p"⟩ (List.mem_singleton.2 rfl) rfl
  exact ⟨h1, h3.2.1, h3.2.2 (by decide)⟩

/-- C2: on a state where the username is not yet present and all three
fields pass validation, `add_user` returns `true` and appends the row;
consequently registering two distinct users into an empty store makes
`display_users` return exactly the two (username, email) pairs. -/
theorem register_success_roundtrip :
    (∀ (rows : List Row) (u e p : String), u ≠ "" → e ≠ "" → p ≠ "" →
      is_valid_email e = true → (∀ r ∈ rows, r.username ≠ u) →
      add_user (some rows) u e p = (some (rows ++ [⟨u, e, p⟩]), true)) ∧
    (∀ u1 e1 p1 u2 e2 p2 : String, u1 ≠ "" → e1 ≠ "" → p1 ≠ "" →
      is_valid_email e1 = true → u2 ≠ "" → e2 ≠ "" → p2 ≠ "" →
      is_valid_email e2 = true → u1 ≠ u2 →
      (add_user (some []) u1 e1 p1).2 = true ∧
      (add_user (add_user (some []) u1 e1 p1).1 u2 e2 p2).2 = true ∧
      display_users (add_user (add_user (some []) u1 e1 p1).1 u2 e2 p2).1 =
        .ok [(u1, e1), (u2, e2)]) := by
  constructor
  · intro rows u e p hu he hp hv hnew
    exact add_user_success hu he hp hv hnew
  · intro u1 e1 p1 u2 e2 p2 hu1 he1 hp1 hv1 hu2 he2 hp2 hv2 hne
    have h1 : add_user (some []) u1 e1 p1 = (some [⟨u1, e1, p1⟩], true) := by
      have := @add_user_success [] u1 e1 p1 hu1 he1 hp1 hv1 (by intro r hr; cases hr)
      simpa using this
    have h2 : add_user (some [⟨u1, e1, p1⟩]) u2 e2 p2 =
        (some [⟨u1, e1, p1⟩, ⟨u2, e2, p2⟩], true) := by
      have hnew : ∀ r ∈ [(⟨u1, e1, p1⟩ : Row)], r.username ≠ u2 := by
        intro r hr
        rw [List.mem_singleton] at hr
        subst hr
        exact hne
      have := add_user_success hu2 he2 hp2 hv2 hnew
      simpa using this
    refine ⟨by rw [h1], ?_, ?_⟩
    · rw [h1]
      show (add_user (some [⟨u1, e1, p1⟩]) u2 e2 p2).2 = true
      rw [h2]
    · rw [h1]
      show display_users (add_user (some [⟨u1, e1, p1⟩]) u2 e2 p2).1 =
        .ok [(u1, e1), (u2, e2)]
      rw [h2]
      show display_users (some [⟨u1, e1, p1⟩, ⟨u2, e2, p2⟩]) =
        .ok [(u1, e1), (u2, e2)]
      rw [display_users_some]
      rfl

/-- Witness for C2 at the spec's example users `u1` and `u2`. -/
theorem register_success_roundtrip_witness :
    (add_user (some []) "u1" "u1@x.co" "p1").2 = true ∧
    display_users
        (add_user (add_user (some []) "u1" "u1@x.co" "p1").1 "u2" "u2@x.co" "p2").1 =
      .ok [("u1", "u1@x.co"), ("u2", "u2@x.co")] := by
  have h := register_success_roundtrip.2 "u1" "u1@x.co" "p1" "u2" "u2@x.co" "p2"
    (by decide) (by decide) (by decide) (by decide)
    (by decide) (by decide) (by decide) (by decide) (by decide)
  exact ⟨h.1, h.2.2⟩

/-- C3: whenever username, email or password is empty, or the email fails
validation, `add_user` returns `false` with the store state unchanged — the
guard fires before any store access, for every state including an absent
table. -/
theorem validation_rejects_without_store_access (s : DBState) (u e p : String)
    (h : u = "" ∨ e = "" ∨ p = "" ∨ is_valid_email e = false) :
    add_user s u e p = (s, false) :=
  add_user_invalid s h

/-- Witness for C3 at the spec's four rejection examples. -/
theorem validation_rejects_witness :
    add_user (some []) "" "a@b.co" "p" = (some [], false) ∧
    add_user (some []) "u" "" "p" = (some [], false) ∧
    add_user (some []) "u" "a@b.co" "" = (some [], false) ∧
    add_user (some []) "u" "not-an-email" "p" = (some [], false) :=
  ⟨validation_rejects_without_store_access (some []) "" "a@b.co" "p" (Or.inl rfl),
   validation_rejects_without_store_access (some []) "u" "" "p" (Or.inr (Or.inl rfl)),
   validation_rejects_without_store_access (some []) "u" "a@b.co" ""
     (Or.inr (Or.inr (Or.inl rfl))),
   validation_rejects_without_store_access (some []) "u" "not-an-email" "p"
     (Or.inr (Or.inr (Or.inr (by decide))))⟩

/-- C4: with the table present and non-empty credentials,
`authenticate_user` returns `true` exactly when some stored row matches both
username and password by exact string (byte-for-byte) equality; and for
every state — table present or absent — empty credentials short-circuit to
`false` without touching storage. -/
theorem authenticate_exact_match_characterization :
    (∀ (rows : List Row) (u p : String), u ≠ "" → p ≠ "" →
      (authenticate_user (some rows) u p = .ok true ↔
        ∃ r ∈ rows, r.username = u ∧ r.password = p)) ∧
    (∀ (s : DBState) (u p : String), u = "" ∨ p = "" →
      authenticate_user s u p = .ok false) :=
  ⟨fun rows u p hu hp => authenticate_some_iff rows hu hp,
   fun s u p h => authenticate_user_empty s h⟩

/-- Witness for C4: a stored row authenticates; empty credentials fail. -/
theorem authenticate_characterization_witness :
    authenticate_user (some [⟨"a", "a@x.co", "pw"⟩]) "a" "pw" = .ok true ∧
    authenticate_user (some [⟨"a", "a@x.co", "pw"⟩]) "" "" = .ok false := by
  constructor
  · exact (authenticate_exact_match_characterization.1 [⟨"a", "a@x.co", "pw"⟩]
      "a" "pw" (by decide) (by decide)).mpr
      ⟨⟨"a", "a@x.co", "pw"⟩, List.mem_singleton.2 rfl, rfl, rfl⟩
  · exact authenticate_exact_match_characterization.2
      (some [⟨"a", "a@x.co", "pw"⟩]) "" "" (Or.inl rfl)

/-- C5 counterexample: the code's rule and the specification's final-dot
rule disagree.  `re.match` only requires the pattern to match a *prefix*,
so `"a@b.cd."` is accepted by `is_valid_email` (the regex stops at
`"a@b.c"`), while the spec's rule demands at least one character after the
*final* dot and rejects it. -/
theorem email_final_dot_counterexample :
    is_valid_email "a@b.cd." = true ∧ specEmailValid "a@b.cd." = false := by
  decide

/-- C5 (amended): `is_valid_email e` holds iff the pattern
`[^@]+@[^@]+\.[^@]+` matches a prefix of `e`: there is at least one
character before the first `'@'`; after that `'@'` there is some `'.'`
preceded by at least one character, with no `'@'` between the `'@'` and
that `'.'`; and the character immediately after that `'.'` exists and is
not `'@'`.  The dot involved need not be the final dot of the string, and
characters after the matched portion are unconstrained. -/
theorem email_regex_characterization (e : String) :
    is_valid_email e = true ↔
      ∃ a b d v, e.data = a ++ '@' :: (b ++ '.' :: d :: v) ∧
        a ≠ [] ∧ '@' ∉ a ∧ b ≠ [] ∧ '@' ∉ b ∧ d ≠ '@' :=
  emailMatch_iff e.data

/-- C6: `add_user` never raises: in the embedding its result type is a plain
(state, boolean) pair with no error alternative — the blanket exception
handlers collapse every failure to `false` — its result boolean is total,
the absent-table storage failure yields `false` with the state unchanged,
and every `false` return leaves the state unchanged. -/
theorem register_never_raises (s : DBState) (u e p : String) :
    ((add_user s u e p).2 = true ∨ (add_user s u e p).2 = false) ∧
    add_user none u e p = (none, false) ∧
    ((add_user s u e p).2 = false → (add_user s u e p).1 = s) := by
  refine ⟨?_, add_user_none u e p, ?_⟩
  · cases h : (add_user s u e p).2
    · exact Or.inr rfl
    · exact Or.inl rfl
  · by_cases hval : u = "" ∨ e = "" ∨ p = "" ∨ is_valid_email e = false
    · rw [add_user_invalid s hval]
      intro _
      rfl
    · cases s with
      | none =>
        rw [add_user_none u e p]
        intro _
        rfl
      | some rows =>
        rw [add_user_some_cases rows u e p hval]
        by_cases hany : (rows.any fun r => r.username == u) = true
        · rw [if_pos hany]
          intro _
          rfl
        · rw [if_neg hany]
          intro hfail
          simp at hfail

/-- C7 counterexample: `authenticate_user` has no exception handler, so on a
state where the `users` table is absent and both credentials are non-empty
it raises the storage error (`no such table`) to the caller instead of
returning `false`, contradicting the claim that storage-level absence is
reported as `false` for every store state. -/
theorem authenticate_absent_table_counterexample :
    authenticate_user none "u" "p" = .error DBError.noSuchTable :=
  authenticate_user_no_table (by decide) (by decide)

/-- C7 (amended): `authenticate_user` returns `false` immediately on empty
credentials for every state; with the table present it returns a boolean —
`true` iff a stored row matches both fields exactly — and never an error;
but with the table absent and non-empty credentials, the storage error
propagates to the caller instead of collapsing to `false`. -/
theorem authenticate_amended_no_raise :
    (∀ (s : DBState) (u p : String), u = "" ∨ p = "" →
      authenticate_user s u p = .ok false) ∧
    (∀ (rows : List Row) (u p : String),
      authenticate_user (some rows) u p =
        .ok (u ≠ "" && p ≠ "" && rows.any fun r => r.username == u && r.password == p)) ∧
    (∀ u p : String, u ≠ "" → p ≠ "" →
      authenticate_user none u p = .error DBError.noSuchTable) := by
  refine ⟨fun s u p h => authenticate_user_empty s h, ?_,
    fun u p hu hp => authenticate_user_no_table hu hp⟩
  intro rows u p
  by_cases h : u = "" ∨ p = ""
  · rw [authenticate_user_empty (some rows) h]
    rcases h with h | h
    · simp [h]
    · simp [h]
  · push_neg at h
    unfold authenticate_user
    rw [if_neg (by push_neg; exact h)]
    simp [h.1, h.2]

/-- Witness for C7's amended claim. -/
theorem authenticate_amended_no_raise_witness :
    authenticate_user (some []) "" "x" = .ok false ∧
    authenticate_user none "a" "pw" = .error DBError.noSuchTable :=
  ⟨authenticate_amended_no_raise.1 (some []) "" "x" (Or.inl rfl),
   authenticate_amended_no_raise.2.2 "a" "pw" (by decide) (by decide)⟩

/-- C8: with the table present, `display_users` returns one
(username, email) pair per stored row — the password never appears in the
result, whose entries are exactly the per-row pairs in order — and on an
empty table it returns the empty list, never an absent value. -/
theorem listing_pairs_and_empty :
    (∀ rows : List Row,
      display_users (some rows) = .ok (rows.map fun r => (r.username, r.email))) ∧
    (∀ rows : List Row, ∃ l, display_users (some rows) = .ok l ∧
      l.length = rows.length ∧
      ∀ q ∈ l, ∃ r ∈ rows, q = (r.username, r.email)) ∧
    display_users (some []) = .ok ([] : List (String × String)) := by
  refine ⟨display_users_some, ?_, rfl⟩
  intro rows
  refine ⟨rows.map fun r => (r.username, r.email), display_users_some rows, by simp, ?_⟩
  intro q hq
  rw [List.mem_map] at hq
  obtain ⟨r, hr, hq⟩ := hq
  exact ⟨r, hr, hq.symm⟩

/-- C9: `create_db` is idempotent and never drops data: running it twice
equals running it once, running it on a state that already has the table
leaves every row unchanged, and running it on a missing table creates the
empty table without error (in the embedding it is a total function with no
error outcome). -/
theorem initialize_idempotent :
    (∀ s : DBState, create_db (create_db s) = create_db s) ∧
    (∀ rows : List Row, create_db (some rows) = some rows) ∧
    create_db none = some [] := by
  refine ⟨?_, fun rows => rfl, rfl⟩
  intro s
  cases s with
  | none => rfl
  | some rows => rfl

/-- C10: on an uninitialized store (absent table), `add_user` with non-empty
valid inputs swallows the storage error and returns `false`, while
`authenticate_user` with non-empty inputs and `display_users` propagate the
storage error to the caller instead of returning a value. -/
theorem uninitialized_store_asymmetry (u e p : String)
    (hu : u ≠ "") (he : e ≠ "") (hp : p ≠ "") (hv : is_valid_email e = true) :
    add_user none u e p = (none, false) ∧
    authenticate_user none u p = .error DBError.noSuchTable ∧
    display_users none = .error DBError.noSuchTable :=
  ⟨add_user_none u e p, authenticate_user_no_table hu hp, rfl⟩

/-- Witness for C10 at concrete valid inputs. -/
theorem uninitialized_store_asymmetry_witness :
    add_user none "a" "a@b.co" "p" = (none, false) ∧
    authenticate_user none "a" "p" = .error DBError.noSuchTable ∧
    display_users none = .error DBError.noSuchTable :=
  uninitialized_store_asymmetry "a" "a@b.co" "p"
    (by decide) (by decide) (by decide) (by decide)
